import Mathlib

/-!
Verification of the ReAct agent loop (`src/react/agent.py`).

The Python module is shallowly embedded below.  External collaborators are
modelled as oracles gathered in `Env`:
  * the generative-model call `generate(model, [prompt])` becomes
    `Env.model : Nat → String → Option String` (call index, prompt text;
    `none` models a null response);
  * `json.loads` (Python standard library, not part of this repository)
    becomes `Env.jsonLoads : String → Except String Json`, an `Except.error`
    modelling a raised `json.JSONDecodeError` with its `str(e)` text;
  * the prompt template file becomes `Env.template`, the result of
    `self.template.format(query=..., history=..., tools=...)`.
File/trace-sink writes (`write_to_file`) and `logger` calls have no effect on
agent state and are not modelled; `time.sleep` likewise.

Python mutates one `IterationStep` object per iteration and `trace` appends
*references* to that object, so the same record can occur several times in
`trace_iterations` and later field assignments are visible through every
occurrence.  The embedding models this with an object store
`AgentState.steps` (one entry per created step, in creation order) and a
reference list `AgentState.traceRefs` (the `trace_iterations` list, each
entry an index into the store); the value returned by `execute` is
`traceRefs.map (steps.getD · default)`.

The mutual recursion think → decide → act → think of the source is made
structural by giving `decide` and `act` the recursive `think` call as an
explicit continuation `next`; `think` is indexed by fuel and passes
`think env fuel` for `next`.  Fuel sufficiency (the loop never exhausts the
fuel `max_iterations + 1` supplied by `execute`) is proved below, which is
the termination statement for the source's unbounded recursion.
-/

namespace ReactAgent

/-- Enumeration for tool names available to the agent (`class Name(Enum)`). -/
inductive Name where
  | WIKIPEDIA : Name
  | GOOGLE : Name
  | NONE : Name
deriving DecidableEq, BEq

/-- String representation of the tool name: `self.name.lower()`. -/
def Name.str : Name → String
  | .WIKIPEDIA => "wikipedia"
  | .GOOGLE => "google"
  | .NONE => "none"

/-- Resolution `Name[s]` of an (already upper-cased) member name; `none`
models the raised `KeyError`. -/
def Name.fromUpper (s : String) : Option Name :=
  if s = "WIKIPEDIA" then some .WIKIPEDIA
  else if s = "GOOGLE" then some .GOOGLE
  else if s = "NONE" then some .NONE
  else none

/-- Represents a message with sender role and content (`class Message`). -/
structure Message where
  role : String
  content : String
deriving DecidableEq

/-- JSON values as produced by `json.loads`. -/
inductive Json where
  | obj : List (String × Json) → Json
  | arr : List Json → Json
  | str : String → Json
  | num : Int → Json
  | bool : Bool → Json
  | null : Json

/-- Represents a single step in the agent's reasoning process
(`class IterationStep`); optional fields default to `None`. -/
structure IterationStep where
  iteration_number : Nat
  thought : Option String := none
  action : Option Json := none
  observation : Option String := none
  final_answer : Option String := none
  error : Option String := none

instance : Inhabited IterationStep := ⟨{ iteration_number := 0 }⟩

/-- A registered tool capability `Callable[[str], str]`; `Except.error e`
models the function raising an exception with text `str(e)`. -/
def ToolFunc : Type := String → Except String String

/-- A wrapper class for tools used by the agent (`class Tool`). -/
structure Tool where
  name : Name
  func : ToolFunc

/-- Executes the tool's function with the provided query; an exception is
caught and its textual description returned (`Tool.use`). -/
def Tool.use (t : Tool) (query : String) : String :=
  match t.func query with
  | .ok r => r
  | .error e => e

/-- External collaborators of the agent (model client, `json.loads`, prompt
template), see the module docstring. -/
structure Env where
  model : Nat → String → Option String
  jsonLoads : String → Except String Json
  template : String → String → String → String

/-- The agent's mutable state (`Agent.__init__`).  The generative model and
the loaded template live in `Env`; `steps`/`traceRefs` model the
`trace_iterations` list as described in the module docstring; `modelCalls`
is a ghost counter selecting the oracle response for each successive model
call. -/
structure AgentState where
  tools : List (Name × Tool)
  messages : List Message
  query : String
  maxIterations : Nat
  currentIteration : Nat
  steps : List IterationStep
  traceRefs : List Nat
  modelCalls : Nat

/-- A freshly constructed agent: `tools = {}`, `messages = []`,
`query = ""`, `max_iterations = 5`, `current_iteration = 0`. -/
def initialAgent : AgentState :=
  { tools := [], messages := [], query := "", maxIterations := 5,
    currentIteration := 0, steps := [], traceRefs := [], modelCalls := 0 }

/-- Registers a tool to the agent (`Agent.register`); Python dict assignment
overwrites an existing key in place and otherwise appends. -/
def register (st : AgentState) (name : Name) (func : ToolFunc) : AgentState :=
  { st with tools :=
      if st.tools.any (fun p => p.1 == name) then
        st.tools.map (fun p => if p.1 == name then (name, Tool.mk name func) else p)
      else
        st.tools ++ [(name, Tool.mk name func)] }

/-- Dictionary lookup `self.tools.get(tool_name)`. -/
def lookupTool (tools : List (Name × Tool)) (tn : Name) : Option Tool :=
  (tools.find? (fun p => p.1 == tn)).map Prod.snd

/-- Logs the message with the specified role and content and stores the
iteration step (`Agent.trace`): non-"system" messages are appended to the
message log, and a non-`None` step reference is appended to
`trace_iterations` (the `None` case writes to the external trace file,
which is not modelled). -/
def trace (st : AgentState) (role content : String) (stepRef : Option Nat) : AgentState :=
  let st1 := if role ≠ "system" then
      { st with messages := st.messages ++ [⟨role, content⟩] }
    else st
  match stepRef with
  | some i => { st1 with traceRefs := st1.traceRefs ++ [i] }
  | none => st1

/-- Retrieves the conversation history (`Agent.get_history`). -/
def get_history (st : AgentState) : String :=
  String.intercalate "\n" (st.messages.map (fun m => m.role ++ ": " ++ m.content))

/-- In-place mutation of the step object at store index `idx` (a Python
attribute assignment on `current_iteration_step`). -/
def modifyStep (st : AgentState) (idx : Nat) (f : IterationStep → IterationStep) : AgentState :=
  { st with steps := st.steps.set idx (f (st.steps.getD idx default)) }

/-- The model client response text: `str(response)` when `generate`
returned a value, the placeholder when it returned `None`
(`Agent.ask_gemini`). -/
def geminiText (env : Env) (callIdx : Nat) (prompt : String) : String :=
  match env.model callIdx prompt with
  | some r => r
  | none => "No response from Gemini"

/-- Queries the generative model with a prompt (`Agent.ask_gemini`),
returning the response text and the state with the ghost call counter
advanced. -/
def ask_gemini (env : Env) (st : AgentState) (prompt : String) : String × AgentState :=
  (geminiText env st.modelCalls prompt, { st with modelCalls := st.modelCalls + 1 })

/-- Python `str.strip(chars)`: remove the given characters from both ends. -/
def pyStrip (s : String) (chars : List Char) : String :=
  String.mk (((s.toList.dropWhile (· ∈ chars)).reverse.dropWhile (· ∈ chars)).reverse)

/-- Characters stripped by a bare `str.strip()` (ASCII whitespace; the
responses at issue contain no other whitespace). -/
def pyWhitespace : List Char := [' ', '\t', '\n', '\r', '\x0b', '\x0c']

/-- Python `str.startswith(pre)`, by code points. -/
def pyStartsWith (s pre : String) : Bool := pre.toList.isPrefixOf s.toList

/-- The response cleaning in `decide`:
`response.strip().strip(backtick).strip()`, then dropping an optional
leading literal `json` tag (slice `[4:]`, by code points) and stripping
again. -/
def cleanResponse (response : String) : String :=
  let c := pyStrip (pyStrip (pyStrip response pyWhitespace) ['\x60']) pyWhitespace
  if pyStartsWith c "json" then pyStrip (String.mk (c.toList.drop 4)) pyWhitespace else c

/-- Python `str.upper()` (ASCII; tool names are ASCII). -/
def pyUpper (s : String) : String := String.mk (s.toList.map Char.toUpper)

/-- Python substring test `pat in s`, by code points. -/
def pyHasSubstr : List Char → List Char → Bool
  | _, [] => true
  | [], _ :: _ => false
  | c :: rest, p :: ps => (List.isPrefixOf (p :: ps) (c :: rest)) || pyHasSubstr rest (p :: ps)

mutual

/-- Python `repr` of a `json.loads` value (single-quoted strings, `True` /
`False` / `None` for the scalar constants). -/
def Json.pyRepr : Json → String
  | .obj fields => "\x7b" ++ String.intercalate ", " (Json.pyReprFields fields) ++ "\x7d"
  | .arr xs => "[" ++ String.intercalate ", " (Json.pyReprList xs) ++ "]"
  | .str s => "\x27" ++ s ++ "\x27"
  | .num n => toString n
  | .bool true => "True"
  | .bool false => "False"
  | .null => "None"

/-- Rendered `key: value` items of a dict, in order. -/
def Json.pyReprFields : List (String × Json) → List String
  | [] => []
  | (k, v) :: rest => ("\x27" ++ k ++ "\x27: " ++ Json.pyRepr v) :: Json.pyReprFields rest

/-- Rendered elements of a list, in order. -/
def Json.pyReprList : List Json → List String
  | [] => []
  | v :: rest => Json.pyRepr v :: Json.pyReprList rest

end

/-- Python `str` of a `json.loads` value (used by the f-string
`f"Final Answer: {parsed_response['answer']}"`). -/
def Json.pyStr : Json → String
  | .str s => s
  | j => j.pyRepr

/-- Python membership test `key in value` on a `json.loads` result: key
membership for a dict, substring test for a string, element equality for a
list; other values raise a `TypeError` (modelled as `Except.error`). -/
def Json.containsKey (j : Json) (key : String) : Except String Bool :=
  match j with
  | .obj fields => .ok (fields.any (fun p => p.1 == key))
  | .str s => .ok (pyHasSubstr s.toList key.toList)
  | .arr xs => .ok (xs.any (fun v => match v with | .str s => s == key | _ => false))
  | _ => .error "argument of type is not iterable"

/-- Python subscript `value[key]` with a string key: dict lookup (a missing
key raises `KeyError(key)`); non-dict values raise a `TypeError`. -/
def Json.index (j : Json) (key : String) : Except String Json :=
  match j with
  | .obj fields =>
      match fields.find? (fun p => p.1 == key) with
      | some p => .ok p.2
      | none => .error ("\x27" ++ key ++ "\x27")
  | _ => .error "indices must be integers"

/-- The value passed on to the tool for `action.get("input", self.query)`:
a string input is passed as is; Python would pass any other JSON value as
the raw object, which the tool oracle observes through its rendering. -/
def Json.asToolArg : Json → String
  | .str s => s
  | j => j.pyStr

/-- Outcome of the try-block of `decide` after a successful `json.loads`. -/
inductive DispatchResult where
  | noAction : Json → DispatchResult
  | useTool : Json → Name → String → DispatchResult
  | finalAnswer : String → DispatchResult

/-- The body of `decide`'s try-block after `json.loads` succeeded:
key tests, `Name[action["name"].upper()]` resolution and the
`action.get("input", self.query)` default.  `Except.error e` models any
exception caught by the generic `except Exception` handler (the raised
`ValueError("Invalid response format")`, a `KeyError` from the member
access or from `Name[...]`, an `AttributeError` from `.upper()` on a
non-string, or a `TypeError` from subscripting a non-dict). -/
def dispatch (parsed : Json) (query : String) : Except String DispatchResult := do
  let hasAction ← parsed.containsKey "action"
  if hasAction then
    let action ← parsed.index "action"
    let nameVal ← action.index "name"
    let nm ← match nameVal with
      | .str s => Except.ok s
      | _ => Except.error "object has no attribute upper"
    match Name.fromUpper (pyUpper nm) with
    | some toolName =>
        if toolName == Name.NONE then
          pure (.noAction action)
        else
          let input := match action.index "input" with
            | .ok v => v.asToolArg
            | .error _ => query
          pure (.useTool action toolName input)
    | none => Except.error ("\x27" ++ pyUpper nm ++ "\x27")
  else
    let hasAnswer ← parsed.containsKey "answer"
    if hasAnswer then
      let answerVal ← parsed.index "answer"
      pure (.finalAnswer answerVal.pyStr)
    else
      Except.error "Invalid response format"

/-- Executes the specified tool's function on the query and logs the result
(`Agent.act`), with the recursion into `think` supplied as the continuation
`next`.  The found branch records the observation, traces it (role
"system", so `trace` does not log it), explicitly appends it to the message
history and recurses; the missing-tool branch records and traces a
"not found" error and recurses. -/
def act (next : AgentState → AgentState) (toolName : Name) (query : String)
    (idx : Nat) (st : AgentState) : AgentState :=
  match lookupTool st.tools toolName with
  | some tool =>
      let result := tool.use query
      let observation := "Observation from " ++ Name.str toolName ++ ": " ++ result
      let st1 := modifyStep st idx (fun s => { s with observation := some observation })
      let st2 := trace st1 "system" observation (some idx)
      let st3 := { st2 with messages := st2.messages ++ [⟨"system", observation⟩] }
      next st3
  | none =>
      let msg := "Error: Tool " ++ Name.str toolName ++ " not found"
      let st1 := modifyStep st idx (fun s => { s with error := some msg })
      let st2 := trace st1 "system" msg (some idx)
      next st2

/-- Processes the agent's response, deciding actions or final answers
(`Agent.decide`), with the recursion into `think` supplied as the
continuation `next`.  A `json.loads` failure and any other exception from
the try-block record and trace an error and recurse; a resolved
`Name.NONE` recurses directly; a tool action is traced and dispatched to
`act`; an answer records and traces the final answer and returns. -/
def decide (env : Env) (next : AgentState → AgentState) (response : String)
    (idx : Nat) (st : AgentState) : AgentState :=
  match env.jsonLoads (cleanResponse response) with
  | .error e =>
      let msg := "I encountered an error in processing. Let me try again. Error: " ++ e
      let st1 := modifyStep st idx (fun s => { s with error := some msg })
      let st2 := trace st1 "assistant" msg (some idx)
      next st2
  | .ok parsed =>
      match dispatch parsed st.query with
      | .ok (.noAction action) =>
          let st1 := modifyStep st idx (fun s => { s with action := some action })
          next st1
      | .ok (.useTool action toolName input) =>
          let st1 := modifyStep st idx (fun s => { s with action := some action })
          let st2 := trace st1 "assistant"
            ("Action: Using " ++ Name.str toolName ++ " tool") (some idx)
          act next toolName input idx st2
      | .ok (.finalAnswer text) =>
          let st1 := modifyStep st idx
            (fun s => { s with final_answer := some ("Final Answer: " ++ text) })
          trace st1 "assistant" ("Final Answer: " ++ text) (some idx)
      | .error e =>
          let msg := "I encountered an unexpected error. Let me try a different approach. Error: " ++ e
          let st1 := modifyStep st idx (fun s => { s with error := some msg })
          let st2 := trace st1 "assistant" msg (some idx)
          next st2

/-- The apology text of the max-iteration cutoff in `think`. -/
def apologyPrefix : String :=
  "I\x27m sorry, but I couldn\x27t find a satisfactory answer within the allowed number of iterations. Here\x27s what I know so far: "

/-- The head of each `think` call: increment `current_iteration` and create
this iteration's `IterationStep` object (appended to the store). -/
def thinkEnter (st : AgentState) : AgentState :=
  { st with currentIteration := st.currentIteration + 1,
            steps := st.steps ++ [{ iteration_number := st.currentIteration + 1 }] }

/-- The max-iteration cutoff branch of `think`: record and trace the
apology concatenated with the rendered history. -/
def thinkTerminal (st1 : AgentState) (idx : Nat) : AgentState :=
  let errorMessage := apologyPrefix ++ get_history st1
  trace (modifyStep st1 idx (fun s => { s with error := some errorMessage }))
    "assistant" errorMessage (some idx)

/-- The model-consulting part of `think`: render the prompt from the
template (query, history, comma-joined lower-cased tool names), call the
model, record and trace the thought; returns the response text and the
updated state. -/
def thinkStep (env : Env) (st1 : AgentState) (idx : Nat) : String × AgentState :=
  let prompt := env.template st1.query (get_history st1)
    (String.intercalate ", " (st1.tools.map (fun p => Name.str p.2.name)))
  let response := (ask_gemini env st1 prompt).1
  let st2 := (ask_gemini env st1 prompt).2
  let st3 := modifyStep st2 idx (fun s => { s with thought := some ("Thought: " ++ response) })
  (response, trace st3 "assistant" ("Thought: " ++ response) (some idx))

/-- Processes the current query, decides actions, and iterates until a
solution or the max iteration limit is reached (`Agent.think`), indexed by
fuel; the fuel-exhaustion branch is proved unreachable for the fuel
supplied by `execute`. -/
def think (env : Env) : Nat → AgentState → AgentState
  | 0, st => st
  | fuel + 1, st =>
    let st1 := thinkEnter st
    let idx := st.steps.length
    if st1.maxIterations < st1.currentIteration then
      thinkTerminal st1 idx
    else
      let rs := thinkStep env st1 idx
      decide env (think env fuel) rs.1 idx rs.2

/-- The record list `trace_iterations` as returned to the caller: each
stored reference dereferenced to the (final) content of its step object. -/
def runResult (st : AgentState) : List IterationStep :=
  st.traceRefs.map (fun i => st.steps.getD i default)

/-- `Agent.execute` with explicit fuel for the `think` recursion: reset the
session (records, messages, counter), log the query as a user message, run
`think`, and return all iteration steps along with the final state. -/
def executeFuel (env : Env) (st : AgentState) (query : String) (fuel : Nat) :
    List IterationStep × AgentState :=
  let st1 := { st with query := query, traceRefs := [], steps := [],
                       messages := [], currentIteration := 0 }
  let st2 := trace st1 "user" query none
  let st3 := think env fuel st2
  (runResult st3, st3)

/-- Executes the agent's query-processing workflow (`Agent.execute`); the
fuel `max_iterations + 1` is sufficient (proved below). -/
def execute (env : Env) (st : AgentState) (query : String) :
    List IterationStep × AgentState :=
  executeFuel env st query (st.maxIterations + 1)

/-! Characterisation of `decide`/`act` as a pure state transformation plus
a flag saying whether the source recursed into `think()` afterwards. -/

/-- Whether a `decide`/`act` call recursed into `think()` (with the state
at that point) or returned without recursing. -/
inductive StepOutcome where
  | continueThink : AgentState → StepOutcome
  | halt : AgentState → StepOutcome

/-- The state transformation of `act` (both branches recurse). -/
def actCore (toolName : Name) (query : String) (idx : Nat) (st : AgentState) : AgentState :=
  match lookupTool st.tools toolName with
  | some tool =>
      let observation := "Observation from " ++ Name.str toolName ++ ": " ++ tool.use query
      let st1 := modifyStep st idx (fun s => { s with observation := some observation })
      let st2 := trace st1 "system" observation (some idx)
      { st2 with messages := st2.messages ++ [⟨"system", observation⟩] }
  | none =>
      let msg := "Error: Tool " ++ Name.str toolName ++ " not found"
      let st1 := modifyStep st idx (fun s => { s with error := some msg })
      trace st1 "system" msg (some idx)

/-- The state transformation of `decide` together with its recursion flag. -/
def decideCore (env : Env) (response : String) (idx : Nat) (st : AgentState) : StepOutcome :=
  match env.jsonLoads (cleanResponse response) with
  | .error e =>
      let msg := "I encountered an error in processing. Let me try again. Error: " ++ e
      let st1 := modifyStep st idx (fun s => { s with error := some msg })
      .continueThink (trace st1 "assistant" msg (some idx))
  | .ok parsed =>
      match dispatch parsed st.query with
      | .ok (.noAction action) =>
          .continueThink (modifyStep st idx (fun s => { s with action := some action }))
      | .ok (.useTool action toolName input) =>
          let st1 := modifyStep st idx (fun s => { s with action := some action })
          let st2 := trace st1 "assistant"
            ("Action: Using " ++ Name.str toolName ++ " tool") (some idx)
          .continueThink (actCore toolName input idx st2)
      | .ok (.finalAnswer text) =>
          let st1 := modifyStep st idx
            (fun s => { s with final_answer := some ("Final Answer: " ++ text) })
          .halt (trace st1 "assistant" ("Final Answer: " ++ text) (some idx))
      | .error e =>
          let msg := "I encountered an unexpected error. Let me try a different approach. Error: " ++ e
          let st1 := modifyStep st idx (fun s => { s with error := some msg })
          .continueThink (trace st1 "assistant" msg (some idx))

/-- Applying the continuation according to the recursion flag. -/
def StepOutcome.run (next : AgentState → AgentState) : StepOutcome → AgentState
  | .continueThink s => next s
  | .halt s => s

attribute [ext] AgentState
attribute [ext] IterationStep
attribute [ext] Message

/-- The state reached by a `decide`/`act` pass, recursing or not. -/
def StepOutcome.state : StepOutcome → AgentState
  | .continueThink s => s
  | .halt s => s

/-- Facts preserved by every state transformation of the loop: the trace
reference list only grows at the end, step objects are never deleted,
existing step objects keep their `iteration_number`, and the bound, query
and tool registry are untouched. -/
structure Mono (st st' : AgentState) : Prop where
  refsPref : st.traceRefs <+: st'.traceRefs
  steps_le : st.steps.length ≤ st'.steps.length
  iterNum : ∀ i, i < st.steps.length →
    (st'.steps.getD i default).iteration_number = (st.steps.getD i default).iteration_number
  max_eq : st'.maxIterations = st.maxIterations
  query_eq : st'.query = st.query
  tools_eq : st'.tools = st.tools

/-- The observation text built by the found-tool branch of `act`. -/
def actObs (toolName : Name) (query : String) (tool : Tool) : String :=
  "Observation from " ++ Name.str toolName ++ ": " ++ tool.use query

/-! Concrete oracles and states used to instantiate the theorems. -/

/-- A model whose output never parses. -/
def envFail : Env :=
  { model := fun _ _ => some "this is not json",
    jsonLoads := fun _ => .error "Expecting value: line 1 column 1 (char 0)",
    template := fun _ _ _ => "PROMPT" }

/-- A model that immediately answers. -/
def envAnswer : Env :=
  { model := fun _ _ => some "RESP",
    jsonLoads := fun s =>
      if s = "RESP" then .ok (.obj [("answer", .str "42")]) else .error "bad",
    template := fun _ _ _ => "PROMPT" }

/-- A model that requests the google tool once and then answers. -/
def envTool : Env :=
  { model := fun n _ => if n = 0 then some "ACT" else some "RESP",
    jsonLoads := fun s =>
      if s = "ACT" then
        .ok (.obj [("action", .obj [("name", .str "google"), ("input", .str "x")])])
      else if s = "RESP" then .ok (.obj [("answer", .str "42")])
      else .error "bad",
    template := fun _ _ _ => "PROMPT" }

/-- A model client that returns a null response. -/
def envNull : Env :=
  { model := fun _ _ => none,
    jsonLoads := fun _ => .error "bad",
    template := fun _ _ _ => "PROMPT" }

/-- A model client that returns an empty (but non-null) response. -/
def envEmptyResp : Env :=
  { model := fun _ _ => some "",
    jsonLoads := fun _ => .error "bad",
    template := fun _ _ _ => "PROMPT" }

/-- A concrete search capability. -/
def googleFunc : ToolFunc := fun q => .ok ("result for " ++ q)

/-- A capability that always raises. -/
def boomTool : Tool := ⟨Name.GOOGLE, fun _ => .error "boom"⟩

def agentWithGoogle : AgentState := register initialAgent Name.GOOGLE googleFunc

/-- An agent state whose iteration counter already exceeds the bound. -/
def stOver : AgentState := { initialAgent with currentIteration := 6 }

/-- An agent state carrying leftovers of a previous run. -/
def staleAgent : AgentState :=
  { initialAgent with messages := [⟨"user", "old"⟩], steps := [{ iteration_number := 1 }],
                      traceRefs := [0], currentIteration := 3, query := "old" }

/-- Whether `decide` records an outcome on the current step for this model
response: a parse failure, an unexpected error, a tool dispatch or a final
answer all do; only the `Name.NONE` path does not. -/
def recordsOutcome (env : Env) (resp q : String) : Prop :=
  match env.jsonLoads (cleanResponse resp) with
  | .error _ => True
  | .ok parsed =>
    match dispatch parsed q with
    | .ok (.noAction _) => False
    | _ => True

/-- No record in the store carries a final answer. -/
def NoFA (st : AgentState) : Prop :=
  ∀ rec ∈ st.steps, rec.final_answer = none

/-- The single step object created by a run whose first response is
`{"answer": a}`: thought and final answer set, nothing else. -/
def answerRecord (r a : String) : IterationStep :=
  { iteration_number := 1, thought := some ("Thought: " ++ r),
    final_answer := some ("Final Answer: " ++ a) }

theorem act_eq (next : AgentState → AgentState) (toolName : Name) (query : String)
    (idx : Nat) (st : AgentState) :
    act next toolName query idx st = next (actCore toolName query idx st) := by
  unfold act actCore
  cases lookupTool st.tools toolName <;> rfl

theorem decide_eq (env : Env) (next : AgentState → AgentState) (response : String)
    (idx : Nat) (st : AgentState) :
    decide env next response idx st = (decideCore env response idx st).run next := by
  unfold decide decideCore
  cases env.jsonLoads (cleanResponse response) with
  | error e => rfl
  | ok parsed =>
    dsimp only
    cases dispatch parsed st.query with
    | error e => rfl
    | ok d =>
      cases d with
      | noAction a => rfl
      | useTool a tn input => exact act_eq ..
      | finalAnswer t => rfl

theorem think_succ_eq (env : Env) (fuel : Nat) (st : AgentState) :
    think env (fuel + 1) st =
      (if (thinkEnter st).maxIterations < (thinkEnter st).currentIteration then
        thinkTerminal (thinkEnter st) st.steps.length
      else
        (decideCore env (thinkStep env (thinkEnter st) st.steps.length).1 st.steps.length
          (thinkStep env (thinkEnter st) st.steps.length).2).run (think env fuel)) := by
  show (if (thinkEnter st).maxIterations < (thinkEnter st).currentIteration then
      thinkTerminal (thinkEnter st) st.steps.length
    else
      decide env (think env fuel) (thinkStep env (thinkEnter st) st.steps.length).1
        st.steps.length (thinkStep env (thinkEnter st) st.steps.length).2) = _
  split
  · rfl
  · exact decide_eq ..

/-! Field-preservation facts for the elementary state operations. -/

@[simp] theorem modifyStep_tools (st : AgentState) (idx : Nat) (f : IterationStep → IterationStep) :
    (modifyStep st idx f).tools = st.tools := rfl

@[simp] theorem modifyStep_messages (st : AgentState) (idx : Nat) (f : IterationStep → IterationStep) :
    (modifyStep st idx f).messages = st.messages := rfl

@[simp] theorem modifyStep_query (st : AgentState) (idx : Nat) (f : IterationStep → IterationStep) :
    (modifyStep st idx f).query = st.query := rfl

@[simp] theorem modifyStep_maxIterations (st : AgentState) (idx : Nat) (f : IterationStep → IterationStep) :
    (modifyStep st idx f).maxIterations = st.maxIterations := rfl

@[simp] theorem modifyStep_currentIteration (st : AgentState) (idx : Nat) (f : IterationStep → IterationStep) :
    (modifyStep st idx f).currentIteration = st.currentIteration := rfl

@[simp] theorem modifyStep_traceRefs (st : AgentState) (idx : Nat) (f : IterationStep → IterationStep) :
    (modifyStep st idx f).traceRefs = st.traceRefs := rfl

@[simp] theorem modifyStep_modelCalls (st : AgentState) (idx : Nat) (f : IterationStep → IterationStep) :
    (modifyStep st idx f).modelCalls = st.modelCalls := rfl

@[simp] theorem modifyStep_steps_length (st : AgentState) (idx : Nat) (f : IterationStep → IterationStep) :
    (modifyStep st idx f).steps.length = st.steps.length := by
  simp [modifyStep]

@[simp] theorem trace_tools (st : AgentState) (role content : String) (o : Option Nat) :
    (trace st role content o).tools = st.tools := by
  unfold trace
  cases o <;> split <;> rfl

@[simp] theorem trace_query (st : AgentState) (role content : String) (o : Option Nat) :
    (trace st role content o).query = st.query := by
  unfold trace
  cases o <;> split <;> rfl

@[simp] theorem trace_maxIterations (st : AgentState) (role content : String) (o : Option Nat) :
    (trace st role content o).maxIterations = st.maxIterations := by
  unfold trace
  cases o <;> split <;> rfl

@[simp] theorem trace_currentIteration (st : AgentState) (role content : String) (o : Option Nat) :
    (trace st role content o).currentIteration = st.currentIteration := by
  unfold trace
  cases o <;> split <;> rfl

@[simp] theorem trace_steps (st : AgentState) (role content : String) (o : Option Nat) :
    (trace st role content o).steps = st.steps := by
  unfold trace
  cases o <;> split <;> rfl

@[simp] theorem trace_modelCalls (st : AgentState) (role content : String) (o : Option Nat) :
    (trace st role content o).modelCalls = st.modelCalls := by
  unfold trace
  cases o <;> split <;> rfl

@[simp] theorem trace_refs_some (st : AgentState) (role content : String) (i : Nat) :
    (trace st role content (some i)).traceRefs = st.traceRefs ++ [i] := by
  unfold trace
  split <;> rfl

@[simp] theorem trace_refs_none (st : AgentState) (role content : String) :
    (trace st role content none).traceRefs = st.traceRefs := by
  unfold trace
  split <;> rfl

theorem trace_messages_system (st : AgentState) (content : String) (o : Option Nat) :
    (trace st "system" content o).messages = st.messages := by
  unfold trace
  cases o <;> rfl

theorem trace_messages_ne (st : AgentState) (role content : String) (o : Option Nat)
    (h : role ≠ "system") :
    (trace st role content o).messages = st.messages ++ [⟨role, content⟩] := by
  unfold trace
  cases o <;> simp [h]



/-! Small list facts used to evaluate store updates. -/

theorem set_snoc_length {α : Type} (l : List α) (a b : α) :
    (l ++ [a]).set l.length b = l ++ [b] := by
  induction l <;> simp_all

theorem getD_snoc_length {α : Type} (l : List α) (a d : α) :
    (l ++ [a]).getD l.length d = a := by
  induction l <;> simp_all

theorem getD_set_ne {α : Type} (l : List α) (i j : Nat) (v d : α) (h : i ≠ j) :
    (l.set i v).getD j d = l.getD j d := by
  simp [List.getD_eq_getElem?_getD, List.getElem?_set_ne h]

theorem getD_set_self {α : Type} (l : List α) (j : Nat) (v d : α) (h : j < l.length) :
    (l.set j v).getD j d = v := by
  simp [List.getD_eq_getElem?_getD, List.getElem?_set_self, h]

theorem getD_append_left {α : Type} (l t : List α) (i : Nat) (d : α) (h : i < l.length) :
    (l ++ t).getD i d = l.getD i d := by
  simp [List.getD_eq_getElem?_getD, List.getElem?_append_left h]

/-- Unfolding of `thinkEnter` on the current-iteration counter. -/
@[simp] theorem thinkEnter_currentIteration (st : AgentState) :
    (thinkEnter st).currentIteration = st.currentIteration + 1 := rfl

@[simp] theorem thinkEnter_maxIterations (st : AgentState) :
    (thinkEnter st).maxIterations = st.maxIterations := rfl

@[simp] theorem thinkEnter_messages (st : AgentState) :
    (thinkEnter st).messages = st.messages := rfl

@[simp] theorem thinkEnter_traceRefs (st : AgentState) :
    (thinkEnter st).traceRefs = st.traceRefs := rfl

@[simp] theorem thinkEnter_tools (st : AgentState) :
    (thinkEnter st).tools = st.tools := rfl

@[simp] theorem thinkEnter_query (st : AgentState) :
    (thinkEnter st).query = st.query := rfl

@[simp] theorem thinkEnter_modelCalls (st : AgentState) :
    (thinkEnter st).modelCalls = st.modelCalls := rfl

@[simp] theorem thinkEnter_steps (st : AgentState) :
    (thinkEnter st).steps
      = st.steps ++ [{ iteration_number := st.currentIteration + 1 }] := rfl

@[simp] theorem get_history_thinkEnter (st : AgentState) :
    get_history (thinkEnter st) = get_history st := rfl

/-- The max-iteration cutoff branch of `think`, fully evaluated: the freshly
created step object gets the apology error (apology text concatenated with
the rendered history at entry), the message is logged with role
"assistant", one reference to the step is appended to `trace_iterations`,
and nothing else changes — in particular no model call is made. -/
theorem thinkTerminal_spec (st : AgentState) :
    thinkTerminal (thinkEnter st) st.steps.length =
      { st with
        currentIteration := st.currentIteration + 1,
        steps := st.steps ++ [{ iteration_number := st.currentIteration + 1,
                                error := some (apologyPrefix ++ get_history st) }],
        messages := st.messages ++ [⟨"assistant", apologyPrefix ++ get_history st⟩],
        traceRefs := st.traceRefs ++ [st.steps.length] } := by
  unfold thinkTerminal
  ext1 <;>
    simp [modifyStep, trace_messages_ne _ _ _ _ (by decide : ("assistant" : String) ≠ "system"),
      getD_snoc_length, set_snoc_length]





theorem Mono.refl (st : AgentState) : Mono st st :=
  ⟨List.prefix_rfl, le_rfl, fun _ _ => rfl, rfl, rfl, rfl⟩

theorem Mono.trans {a b c : AgentState} (h1 : Mono a b) (h2 : Mono b c) : Mono a c :=
  ⟨h1.refsPref.trans h2.refsPref, le_trans h1.steps_le h2.steps_le,
   fun i hi => (h2.iterNum i (lt_of_lt_of_le hi h1.steps_le)).trans (h1.iterNum i hi),
   h2.max_eq.trans h1.max_eq, h2.query_eq.trans h1.query_eq, h2.tools_eq.trans h1.tools_eq⟩

theorem mono_modifyStep (st : AgentState) (idx : Nat) (f : IterationStep → IterationStep)
    (hf : ∀ s, (f s).iteration_number = s.iteration_number) :
    Mono st (modifyStep st idx f) := by
  refine ⟨by simp [List.prefix_rfl], by simp, ?_, rfl, rfl, rfl⟩
  intro i hi
  by_cases hidx : idx = i
  · subst hidx
    by_cases hlt : idx < st.steps.length
    · simp only [modifyStep]
      rw [getD_set_self _ _ _ _ hlt, hf]
    · omega
  · simp only [modifyStep]
    rw [getD_set_ne _ _ _ _ _ hidx]

theorem mono_trace (st : AgentState) (role content : String) (o : Option Nat) :
    Mono st (trace st role content o) := by
  refine ⟨?_, by simp, fun i hi => by simp, by simp, by simp, by simp⟩
  cases o
  · simp [List.prefix_rfl]
  · simp [List.prefix_append]

theorem mono_msgAppend (st : AgentState) (m : Message) :
    Mono st { st with messages := st.messages ++ [m] } :=
  ⟨List.prefix_rfl, le_rfl, fun _ _ => rfl, rfl, rfl, rfl⟩

theorem mono_thinkEnter (st : AgentState) : Mono st (thinkEnter st) := by
  refine ⟨by simp [List.prefix_rfl], by simp, ?_, rfl, rfl, rfl⟩
  intro i hi
  simp only [thinkEnter_steps]
  rw [getD_append_left _ _ _ _ hi]

@[simp] theorem thinkStep_state_currentIteration (env : Env) (st1 : AgentState) (idx : Nat) :
    ((thinkStep env st1 idx).2).currentIteration = st1.currentIteration := by
  simp [thinkStep, ask_gemini]

@[simp] theorem thinkStep_state_maxIterations (env : Env) (st1 : AgentState) (idx : Nat) :
    ((thinkStep env st1 idx).2).maxIterations = st1.maxIterations := by
  simp [thinkStep, ask_gemini]

@[simp] theorem thinkStep_state_steps_length (env : Env) (st1 : AgentState) (idx : Nat) :
    ((thinkStep env st1 idx).2).steps.length = st1.steps.length := by
  simp [thinkStep, ask_gemini]

@[simp] theorem thinkStep_state_traceRefs (env : Env) (st1 : AgentState) (idx : Nat) :
    ((thinkStep env st1 idx).2).traceRefs = st1.traceRefs ++ [idx] := by
  simp [thinkStep, ask_gemini]

theorem mono_modifyStep_thought (st : AgentState) (idx : Nat) (v : Option String) :
    Mono st (modifyStep st idx (fun s => { s with thought := v })) :=
  mono_modifyStep st idx _ (fun _ => rfl)

theorem mono_modifyStep_action (st : AgentState) (idx : Nat) (v : Option Json) :
    Mono st (modifyStep st idx (fun s => { s with action := v })) :=
  mono_modifyStep st idx _ (fun _ => rfl)

theorem mono_modifyStep_observation (st : AgentState) (idx : Nat) (v : Option String) :
    Mono st (modifyStep st idx (fun s => { s with observation := v })) :=
  mono_modifyStep st idx _ (fun _ => rfl)

theorem mono_modifyStep_final_answer (st : AgentState) (idx : Nat) (v : Option String) :
    Mono st (modifyStep st idx (fun s => { s with final_answer := v })) :=
  mono_modifyStep st idx _ (fun _ => rfl)

theorem mono_modifyStep_error (st : AgentState) (idx : Nat) (v : Option String) :
    Mono st (modifyStep st idx (fun s => { s with error := v })) :=
  mono_modifyStep st idx _ (fun _ => rfl)

theorem mono_modelCallBump (st : AgentState) :
    Mono st { st with modelCalls := st.modelCalls + 1 } :=
  ⟨List.prefix_rfl, le_rfl, fun _ _ => rfl, rfl, rfl, rfl⟩

/-- The updated state of `thinkStep`, written out. -/
theorem thinkStep_snd (env : Env) (st1 : AgentState) (idx : Nat) :
    (thinkStep env st1 idx).2 =
      trace (modifyStep { st1 with modelCalls := st1.modelCalls + 1 } idx
          (fun s => { s with thought := some ("Thought: " ++ (thinkStep env st1 idx).1) }))
        "assistant" ("Thought: " ++ (thinkStep env st1 idx).1) (some idx) := rfl

theorem mono_thinkStep (env : Env) (st1 : AgentState) (idx : Nat) :
    Mono st1 ((thinkStep env st1 idx).2) := by
  rw [thinkStep_snd]
  exact ((mono_modelCallBump st1).trans
    (mono_modifyStep_thought _ idx _)).trans (mono_trace _ _ _ _)



/-- The missing-tool branch of `act`, written out. -/
theorem actCore_none_eq (toolName : Name) (query : String) (idx : Nat) (st : AgentState)
    (h : lookupTool st.tools toolName = none) :
    actCore toolName query idx st =
      trace (modifyStep st idx
          (fun s => { s with error := some ("Error: Tool " ++ Name.str toolName ++ " not found") }))
        "system" ("Error: Tool " ++ Name.str toolName ++ " not found") (some idx) := by
  unfold actCore
  rw [h]

/-- The found-tool branch of `act`, written out. -/
theorem actCore_some_eq (toolName : Name) (query : String) (idx : Nat) (st : AgentState)
    (tool : Tool) (h : lookupTool st.tools toolName = some tool) :
    actCore toolName query idx st =
      { (trace (modifyStep st idx
            (fun s => { s with observation := some (actObs toolName query tool) }))
          "system" (actObs toolName query tool) (some idx))
        with messages := st.messages ++ [⟨"system", actObs toolName query tool⟩] } := by
  unfold actCore
  rw [h]
  ext1 <;> simp [actObs, trace_messages_system]

theorem mono_actCore (toolName : Name) (query : String) (idx : Nat) (st : AgentState) :
    Mono st (actCore toolName query idx st) := by
  cases h : lookupTool st.tools toolName with
  | none =>
    rw [actCore_none_eq _ _ _ _ h]
    exact (mono_modifyStep_error _ idx _).trans (mono_trace _ _ _ _)
  | some tool =>
    rw [actCore_some_eq _ _ _ _ _ h]
    have h1 : Mono st (trace (modifyStep st idx
        (fun s => { s with observation := some (actObs toolName query tool) }))
        "system" (actObs toolName query tool) (some idx)) :=
      (mono_modifyStep_observation _ idx _).trans (mono_trace _ _ _ _)
    refine h1.trans ⟨List.prefix_rfl, le_rfl, fun _ _ => rfl, rfl, rfl, rfl⟩

theorem actCore_currentIteration (toolName : Name) (query : String) (idx : Nat) (st : AgentState) :
    (actCore toolName query idx st).currentIteration = st.currentIteration := by
  cases h : lookupTool st.tools toolName with
  | none => rw [actCore_none_eq _ _ _ _ h]; simp
  | some tool => rw [actCore_some_eq _ _ _ _ _ h]; simp

theorem decideCore_mono (env : Env) (r : String) (idx : Nat) (st : AgentState) :
    Mono st ((decideCore env r idx st).state) := by
  unfold decideCore
  cases env.jsonLoads (cleanResponse r) with
  | error e =>
    dsimp only [StepOutcome.state]
    exact (mono_modifyStep_error _ idx _).trans (mono_trace _ _ _ _)
  | ok parsed =>
    dsimp only
    cases dispatch parsed st.query with
    | error e =>
      dsimp only [StepOutcome.state]
      exact (mono_modifyStep_error _ idx _).trans (mono_trace _ _ _ _)
    | ok d =>
      cases d with
      | noAction a =>
        dsimp only [StepOutcome.state]
        exact mono_modifyStep_action _ idx _
      | useTool a tn input =>
        dsimp only [StepOutcome.state]
        exact ((mono_modifyStep_action _ idx _).trans (mono_trace _ _ _ _)).trans
          (mono_actCore _ _ _ _)
      | finalAnswer t =>
        dsimp only [StepOutcome.state]
        exact (mono_modifyStep_final_answer _ idx _).trans (mono_trace _ _ _ _)

theorem decideCore_currentIteration (env : Env) (r : String) (idx : Nat) (st : AgentState) :
    ((decideCore env r idx st).state).currentIteration = st.currentIteration := by
  unfold decideCore
  cases env.jsonLoads (cleanResponse r) with
  | error e => dsimp only [StepOutcome.state]; simp
  | ok parsed =>
    dsimp only
    cases dispatch parsed st.query with
    | error e => dsimp only [StepOutcome.state]; simp
    | ok d =>
      cases d with
      | noAction a => dsimp only [StepOutcome.state]; simp
      | useTool a tn input =>
        dsimp only [StepOutcome.state]
        rw [actCore_currentIteration]
        simp
      | finalAnswer t => dsimp only [StepOutcome.state]; simp

/-- Every `think` call only extends the trace/record state (and preserves
the bound, query, registry and the identity of existing records). -/
theorem think_mono (env : Env) : ∀ (fuel : Nat) (st : AgentState), Mono st (think env fuel st) := by
  intro fuel
  induction fuel with
  | zero => intro st; exact Mono.refl st
  | succ fuel ih =>
    intro st
    rw [think_succ_eq]
    split
    · rw [thinkTerminal_spec]
      refine ⟨by simp [List.prefix_append], by simp, ?_, by simp, by simp, by simp⟩
      intro i hi
      simp only
      rw [getD_append_left _ _ _ _ hi]
    · have h1 : Mono st ((thinkStep env (thinkEnter st) st.steps.length).2) :=
        (mono_thinkEnter st).trans (mono_thinkStep env (thinkEnter st) st.steps.length)
      cases ho : decideCore env (thinkStep env (thinkEnter st) st.steps.length).1
          st.steps.length (thinkStep env (thinkEnter st) st.steps.length).2 with
      | continueThink s =>
        have h2 := decideCore_mono env (thinkStep env (thinkEnter st) st.steps.length).1
          st.steps.length (thinkStep env (thinkEnter st) st.steps.length).2
        rw [ho] at h2
        exact (h1.trans h2).trans (ih s)
      | halt s =>
        have h2 := decideCore_mono env (thinkStep env (thinkEnter st) st.steps.length).1
          st.steps.length (thinkStep env (thinkEnter st) st.steps.length).2
        rw [ho] at h2
        exact h1.trans h2

/-- A `think` call with non-zero fuel creates at least one new step
object. -/
theorem think_creates (env : Env) (fuel : Nat) (st : AgentState) :
    st.steps.length + 1 ≤ (think env (fuel + 1) st).steps.length := by
  rw [think_succ_eq]
  split
  · rw [thinkTerminal_spec]; simp
  · cases ho : decideCore env (thinkStep env (thinkEnter st) st.steps.length).1
        st.steps.length (thinkStep env (thinkEnter st) st.steps.length).2 with
    | continueThink s =>
      have h2 := decideCore_mono env (thinkStep env (thinkEnter st) st.steps.length).1
        st.steps.length (thinkStep env (thinkEnter st) st.steps.length).2
      rw [ho] at h2
      have h3 := (think_mono env fuel s).steps_le
      have h4 : ((thinkStep env (thinkEnter st) st.steps.length).2).steps.length
          = st.steps.length + 1 := by simp
      have := h2.steps_le
      simp only [StepOutcome.state] at this
      dsimp only [StepOutcome.run]
      omega
    | halt s =>
      have h2 := decideCore_mono env (thinkStep env (thinkEnter st) st.steps.length).1
        st.steps.length (thinkStep env (thinkEnter st) st.steps.length).2
      rw [ho] at h2
      have h4 : ((thinkStep env (thinkEnter st) st.steps.length).2).steps.length
          = st.steps.length + 1 := by simp
      have := h2.steps_le
      simp only [StepOutcome.state] at this
      dsimp only [StepOutcome.run]
      omega

/-- The iteration counter after a `think` call started within budget never
exceeds `max_iterations + 1`. -/
theorem think_cur_le (env : Env) : ∀ (fuel : Nat) (st : AgentState),
    st.currentIteration ≤ st.maxIterations →
    (think env fuel st).currentIteration ≤ st.maxIterations + 1 := by
  intro fuel
  induction fuel with
  | zero => intro st h; simpa [think] using Nat.le_succ_of_le h
  | succ fuel ih =>
    intro st h
    rw [think_succ_eq]
    split
    · rw [thinkTerminal_spec]; simpa using h
    · rename_i hc
      simp only [thinkEnter_maxIterations, thinkEnter_currentIteration, not_lt] at hc
      cases ho : decideCore env (thinkStep env (thinkEnter st) st.steps.length).1
          st.steps.length (thinkStep env (thinkEnter st) st.steps.length).2 with
      | continueThink s =>
        have h2 := decideCore_mono env (thinkStep env (thinkEnter st) st.steps.length).1
          st.steps.length (thinkStep env (thinkEnter st) st.steps.length).2
        have h3 := decideCore_currentIteration env
          (thinkStep env (thinkEnter st) st.steps.length).1
          st.steps.length (thinkStep env (thinkEnter st) st.steps.length).2
        rw [ho] at h2 h3
        simp only [StepOutcome.state] at h2 h3
        dsimp only [StepOutcome.run]
        have hcur : s.currentIteration = st.currentIteration + 1 := by
          rw [h3]; simp
        have hmax : s.maxIterations = st.maxIterations := by
          have := h2.max_eq; simpa using this
        have := ih s (by omega)
        omega
      | halt s =>
        have h3 := decideCore_currentIteration env
          (thinkStep env (thinkEnter st) st.steps.length).1
          st.steps.length (thinkStep env (thinkEnter st) st.steps.length).2
        rw [ho] at h3
        simp only [StepOutcome.state] at h3
        dsimp only [StepOutcome.run]
        rw [h3]
        simpa using Nat.le_succ_of_le hc

/-- Adding fuel beyond `max_iterations + 1 - current_iteration` does not
change the run: the fuel-exhaustion branch is unreachable. -/
theorem think_fuel_succ (env : Env) : ∀ (fuel : Nat) (st : AgentState),
    st.maxIterations ≤ st.currentIteration + fuel →
    think env (fuel + 1) st = think env (fuel + 2) st := by
  intro fuel
  induction fuel with
  | zero =>
    intro st h
    rw [think_succ_eq, think_succ_eq]
    have hc : (thinkEnter st).maxIterations < (thinkEnter st).currentIteration := by
      simp; omega
    rw [if_pos hc, if_pos hc]
  | succ fuel ih =>
    intro st h
    rw [think_succ_eq, think_succ_eq]
    split
    · rfl
    · cases ho : decideCore env (thinkStep env (thinkEnter st) st.steps.length).1
          st.steps.length (thinkStep env (thinkEnter st) st.steps.length).2 with
      | continueThink s =>
        dsimp only [StepOutcome.run]
        have h2 := decideCore_mono env (thinkStep env (thinkEnter st) st.steps.length).1
          st.steps.length (thinkStep env (thinkEnter st) st.steps.length).2
        have h3 := decideCore_currentIteration env
          (thinkStep env (thinkEnter st) st.steps.length).1
          st.steps.length (thinkStep env (thinkEnter st) st.steps.length).2
        rw [ho] at h2 h3
        simp only [StepOutcome.state] at h2 h3
        have hcur : s.currentIteration = st.currentIteration + 1 := by
          rw [h3]; simp
        have hmax : s.maxIterations = st.maxIterations := by
          have := h2.max_eq; simpa using this
        exact ih s (by omega)
      | halt s => dsimp only [StepOutcome.run]

theorem think_fuel_add (env : Env) (d : Nat) : ∀ (fuel : Nat) (st : AgentState),
    st.maxIterations ≤ st.currentIteration + fuel →
    think env (fuel + 1) st = think env (fuel + 1 + d) st := by
  induction d with
  | zero => intro fuel st h; rfl
  | succ d ihd =>
    intro fuel st h
    rw [ihd fuel st h]
    have : fuel + 1 + d = (fuel + d) + 1 := by omega
    rw [this]
    have h2 := think_fuel_succ env (fuel + d) st (by omega)
    rw [h2]
    congr 1
    omega

/-! Branch-by-branch unfoldings of `decideCore`. -/

theorem decideCore_jsonError_eq (env : Env) (r : String) (idx : Nat) (st : AgentState)
    (e : String) (hj : env.jsonLoads (cleanResponse r) = .error e) :
    decideCore env r idx st =
      .continueThink (trace (modifyStep st idx (fun s =>
          { s with error := some ("I encountered an error in processing. Let me try again. Error: " ++ e) }))
        "assistant" ("I encountered an error in processing. Let me try again. Error: " ++ e)
        (some idx)) := by
  unfold decideCore
  rw [hj]

theorem decideCore_dispatchError_eq (env : Env) (r : String) (idx : Nat) (st : AgentState)
    (parsed : Json) (e : String) (hj : env.jsonLoads (cleanResponse r) = .ok parsed)
    (hd : dispatch parsed st.query = .error e) :
    decideCore env r idx st =
      .continueThink (trace (modifyStep st idx (fun s =>
          { s with error := some ("I encountered an unexpected error. Let me try a different approach. Error: " ++ e) }))
        "assistant" ("I encountered an unexpected error. Let me try a different approach. Error: " ++ e)
        (some idx)) := by
  unfold decideCore
  rw [hj]
  dsimp only
  rw [hd]

theorem decideCore_noAction_eq (env : Env) (r : String) (idx : Nat) (st : AgentState)
    (parsed a : Json) (hj : env.jsonLoads (cleanResponse r) = .ok parsed)
    (hd : dispatch parsed st.query = .ok (.noAction a)) :
    decideCore env r idx st =
      .continueThink (modifyStep st idx (fun s => { s with action := some a })) := by
  unfold decideCore
  rw [hj]
  dsimp only
  rw [hd]

theorem decideCore_useTool_eq (env : Env) (r : String) (idx : Nat) (st : AgentState)
    (parsed a : Json) (tn : Name) (input : String)
    (hj : env.jsonLoads (cleanResponse r) = .ok parsed)
    (hd : dispatch parsed st.query = .ok (.useTool a tn input)) :
    decideCore env r idx st =
      .continueThink (actCore tn input idx
        (trace (modifyStep st idx (fun s => { s with action := some a }))
          "assistant" ("Action: Using " ++ Name.str tn ++ " tool") (some idx))) := by
  unfold decideCore
  rw [hj]
  dsimp only
  rw [hd]

theorem decideCore_answer_eq (env : Env) (r : String) (idx : Nat) (st : AgentState)
    (parsed : Json) (t : String) (hj : env.jsonLoads (cleanResponse r) = .ok parsed)
    (hd : dispatch parsed st.query = .ok (.finalAnswer t)) :
    decideCore env r idx st =
      .halt (trace (modifyStep st idx (fun s =>
          { s with final_answer := some ("Final Answer: " ++ t) }))
        "assistant" ("Final Answer: " ++ t) (some idx)) := by
  unfold decideCore
  rw [hj]
  dsimp only
  rw [hd]

/-- Whatever a `think` call does to the outcome state, it only extends it. -/
theorem mono_run_think (env : Env) (fuel : Nat) (o : StepOutcome) :
    Mono o.state (o.run (think env fuel)) := by
  cases o with
  | continueThink s => exact think_mono env fuel s
  | halt s => exact Mono.refl s

/-- C1: for every query and every model behaviour, `execute()` terminates —
any fuel of at least `max_iterations + 1` yields the same run as the fuel
`execute` uses, so the recursion never needs more than that — and the
number of `think()` invocations within one `execute()` call is at most
`max_iterations + 1` (each `think()` entry increments `current_iteration`
by exactly one and `execute` resets the counter to zero, so the final
counter value counts the `think()` invocations of the run). -/
theorem execute_terminates_within_bound (env : Env) (st : AgentState) (q : String) (f : Nat)
    (h : st.maxIterations + 1 ≤ f) :
    executeFuel env st q f = execute env st q ∧
    ((execute env st q).2).currentIteration ≤ st.maxIterations + 1 := by
  constructor
  · simp only [execute, executeFuel]
    obtain ⟨d, hd⟩ : ∃ d, f = (st.maxIterations + 1) + d := ⟨f - (st.maxIterations + 1), by omega⟩
    subst hd
    rw [← think_fuel_add env d st.maxIterations _ (by simp)]
  · simp only [execute, executeFuel]
    have := think_cur_le env (st.maxIterations + 1)
      (trace { st with query := q, traceRefs := [], steps := [], messages := [],
                       currentIteration := 0 } "user" q none)
      (by simp)
    simpa using this

/-- C4: `Tool.use` never raises: it returns the wrapped function's result
on success and the exception's textual description on failure. -/
theorem tool_use_never_raises (t : Tool) (q : String) :
    (∀ r, t.func q = .ok r → t.use q = r) ∧
    (∀ e, t.func q = .error e → t.use q = e) := by
  constructor <;> intro x hx <;> unfold Tool.use <;> rw [hx]

/-- C5: when `think()` is entered with the counter already at or beyond
`max_iterations` (in particular when it exceeds it), the run terminates
with an error record whose message is exactly the fixed apology text
concatenated with the full rendered conversation history, one reference to
that record is traced, and no model call occurs (the ghost model-call
counter is unchanged); the default bound of a fresh agent is 5. -/
theorem think_budget_cutoff (env : Env) (fuel : Nat) (st : AgentState)
    (h : st.maxIterations < st.currentIteration + 1) :
    think env (fuel + 1) st =
      { st with
        currentIteration := st.currentIteration + 1,
        steps := st.steps ++ [{ iteration_number := st.currentIteration + 1,
                                error := some (apologyPrefix ++ get_history st) }],
        messages := st.messages ++ [⟨"assistant", apologyPrefix ++ get_history st⟩],
        traceRefs := st.traceRefs ++ [st.steps.length] }
    ∧ (think env (fuel + 1) st).modelCalls = st.modelCalls
    ∧ initialAgent.maxIterations = 5 := by
  have hc : (thinkEnter st).maxIterations < (thinkEnter st).currentIteration := by
    simpa using h
  have hmain : think env (fuel + 1) st =
      { st with
        currentIteration := st.currentIteration + 1,
        steps := st.steps ++ [{ iteration_number := st.currentIteration + 1,
                                error := some (apologyPrefix ++ get_history st) }],
        messages := st.messages ++ [⟨"assistant", apologyPrefix ++ get_history st⟩],
        traceRefs := st.traceRefs ++ [st.steps.length] } := by
    rw [think_succ_eq, if_pos hc, thinkTerminal_spec]
  exact ⟨hmain, by rw [hmain], rfl⟩

/-- C7 (amended): `ask_gemini` maps a null model response to the literal
placeholder text and returns every non-null response — including the empty
string — as is. -/
theorem ask_gemini_placeholder (env : Env) (st : AgentState) (p : String) :
    (env.model st.modelCalls p = none →
      (ask_gemini env st p).1 = "No response from Gemini") ∧
    (∀ r, env.model st.modelCalls p = some r → (ask_gemini env st p).1 = r) := by
  constructor
  · intro h
    simp [ask_gemini, geminiText, h]
  · intro r h
    simp [ask_gemini, geminiText, h]

/-- C8: the result of `execute` is entirely independent of the previous
session state — message log, record store, trace references, counter and
previous query are all reset before any iteration — so only the bound, the
tool registry and the external oracles influence a run. -/
theorem execute_resets_session (env : Env) (st1 st2 : AgentState) (q : String)
    (hmax : st1.maxIterations = st2.maxIterations)
    (htools : st1.tools = st2.tools)
    (hcalls : st1.modelCalls = st2.modelCalls) :
    execute env st1 q = execute env st2 q := by
  have hst : ({ st1 with query := q, traceRefs := [], steps := [], messages := [],
                         currentIteration := 0 } : AgentState)
      = { st2 with query := q, traceRefs := [], steps := [], messages := [],
                   currentIteration := 0 } := by
    ext1 <;> simp [hmax, htools, hcalls]
  simp only [execute, executeFuel]
  rw [hst, hmax]



/-- Witness for C1 at a concrete environment, state and fuel. -/
theorem execute_terminates_within_bound_witness :
    initialAgent.maxIterations + 1 ≤ 7 ∧
    (executeFuel envFail initialAgent "q" 7 = execute envFail initialAgent "q" ∧
     ((execute envFail initialAgent "q").2).currentIteration
        ≤ initialAgent.maxIterations + 1) :=
  ⟨by decide, execute_terminates_within_bound envFail initialAgent "q" 7 (by decide)⟩

/-- Witness for C4: a raising capability and a succeeding one. -/
theorem tool_use_never_raises_witness :
    (boomTool.func "q" = .error "boom" ∧ boomTool.use "q" = "boom") ∧
    ((Tool.mk Name.GOOGLE googleFunc).func "q" = .ok "result for q" ∧
     (Tool.mk Name.GOOGLE googleFunc).use "q" = "result for q") :=
  ⟨⟨rfl, (tool_use_never_raises boomTool "q").2 "boom" rfl⟩,
   ⟨rfl, (tool_use_never_raises (Tool.mk Name.GOOGLE googleFunc) "q").1 "result for q" rfl⟩⟩

/-- Witness for C5 at a concrete over-budget state. -/
theorem think_budget_cutoff_witness :
    stOver.maxIterations < stOver.currentIteration + 1 ∧
    (think envFail (0 + 1) stOver =
      { stOver with
        currentIteration := stOver.currentIteration + 1,
        steps := stOver.steps ++ [{ iteration_number := stOver.currentIteration + 1,
                                    error := some (apologyPrefix ++ get_history stOver) }],
        messages := stOver.messages ++ [⟨"assistant", apologyPrefix ++ get_history stOver⟩],
        traceRefs := stOver.traceRefs ++ [stOver.steps.length] }
     ∧ (think envFail (0 + 1) stOver).modelCalls = stOver.modelCalls
     ∧ initialAgent.maxIterations = 5) :=
  ⟨by decide, think_budget_cutoff envFail 0 stOver (by decide)⟩

/-- Witness for C7 (amended): a null and a non-null model response. -/
theorem ask_gemini_placeholder_witness :
    (ask_gemini envNull initialAgent "p").1 = "No response from Gemini" ∧
    (ask_gemini envAnswer initialAgent "p").1 = "RESP" :=
  ⟨(ask_gemini_placeholder envNull initialAgent "p").1 rfl,
   (ask_gemini_placeholder envAnswer initialAgent "p").2 "RESP" rfl⟩

/-- Counterexample for C7 as stated: an empty (non-null) model response is
returned as the empty string, not mapped to the placeholder text. -/
theorem ask_gemini_empty_counterexample :
    (ask_gemini envEmptyResp initialAgent "p").1 = "" ∧
    ¬((ask_gemini envEmptyResp initialAgent "p").1 = "No response from Gemini") :=
  ⟨rfl, by decide⟩

/-- C6: when the model requests a tool name resolving to a `Name` with no
registration, `act` records a "tool not found" error on the current
iteration's record, recurses into `think()`, and the loop continues to a
subsequent record (the recursion creates at least one further step object)
rather than terminating immediately. -/
theorem act_unregistered_tool_continues (env : Env) (fuel : Nat) (toolName : Name)
    (q : String) (idx : Nat) (st : AgentState)
    (hlook : lookupTool st.tools toolName = none) (hidx : idx < st.steps.length) :
    act (think env (fuel + 1)) toolName q idx st
        = think env (fuel + 1) (actCore toolName q idx st) ∧
    ((actCore toolName q idx st).steps.getD idx default).error
        = some ("Error: Tool " ++ Name.str toolName ++ " not found") ∧
    (actCore toolName q idx st).steps.length
        < (act (think env (fuel + 1)) toolName q idx st).steps.length := by
  refine ⟨act_eq .., ?_, ?_⟩
  · rw [actCore_none_eq _ _ _ _ hlook]
    simp only [trace_steps, modifyStep]
    rw [getD_set_self _ _ _ _ hidx]
  · rw [act_eq]
    exact think_creates env fuel (actCore toolName q idx st)

/-- Witness for C6: the google tool requested on an empty registry. -/
theorem act_unregistered_tool_continues_witness :
    lookupTool staleAgent.tools Name.GOOGLE = none ∧ 0 < staleAgent.steps.length ∧
    (act (think envFail (6 + 1)) Name.GOOGLE "q" 0 staleAgent
        = think envFail (6 + 1) (actCore Name.GOOGLE "q" 0 staleAgent) ∧
     ((actCore Name.GOOGLE "q" 0 staleAgent).steps.getD 0 default).error
        = some ("Error: Tool " ++ Name.str Name.GOOGLE ++ " not found") ∧
     (actCore Name.GOOGLE "q" 0 staleAgent).steps.length
        < (act (think envFail (6 + 1)) Name.GOOGLE "q" 0 staleAgent).steps.length) :=
  ⟨rfl, by decide,
   act_unregistered_tool_continues envFail 6 Name.GOOGLE "q" 0 staleAgent rfl (by decide)⟩

/-- C10: `trace` never appends a message with role "system" to the
conversation history; consequently the "tool not found" error (traced with
role "system") never enters the message log, while a tool observation
enters it exactly once — through the explicit append in `act`, not through
`trace`. -/
theorem trace_system_frame :
    (∀ (st : AgentState) (c : String) (o : Option Nat),
      (trace st "system" c o).messages = st.messages) ∧
    (∀ (next : AgentState → AgentState) (tn : Name) (q : String) (idx : Nat) (st : AgentState),
      act next tn q idx st = next (actCore tn q idx st)) ∧
    (∀ (tn : Name) (q : String) (idx : Nat) (st : AgentState),
      lookupTool st.tools tn = none → (actCore tn q idx st).messages = st.messages) ∧
    (∀ (tn : Name) (q : String) (idx : Nat) (st : AgentState) (tool : Tool),
      lookupTool st.tools tn = some tool →
      (actCore tn q idx st).messages = st.messages ++ [⟨"system", actObs tn q tool⟩]) := by
  refine ⟨fun st c o => trace_messages_system st c o, fun next tn q idx st => act_eq .., ?_, ?_⟩
  · intro tn q idx st h
    rw [actCore_none_eq _ _ _ _ h, trace_messages_system]
    simp
  · intro tn q idx st tool h
    rw [actCore_some_eq _ _ _ _ _ h]

/-- Witness for C10 at concrete states: a "system" trace leaves the log
unchanged, a missing tool adds no message, a found tool adds exactly its
observation. -/
theorem trace_system_frame_witness :
    (trace staleAgent "system" "obs" none).messages = staleAgent.messages ∧
    (actCore Name.GOOGLE "q" 0 initialAgent).messages = initialAgent.messages ∧
    (actCore Name.GOOGLE "q" 0 agentWithGoogle).messages
      = agentWithGoogle.messages
        ++ [⟨"system", actObs Name.GOOGLE "q" (Tool.mk Name.GOOGLE googleFunc)⟩] :=
  ⟨trace_system_frame.1 staleAgent "obs" none,
   trace_system_frame.2.2.1 Name.GOOGLE "q" 0 initialAgent rfl,
   trace_system_frame.2.2.2 Name.GOOGLE "q" 0 agentWithGoogle (Tool.mk Name.GOOGLE googleFunc) rfl⟩

/-- The model response consulted by `thinkStep`, written out. -/
theorem thinkStep_fst (env : Env) (st1 : AgentState) (idx : Nat) :
    (thinkStep env st1 idx).1 = geminiText env st1.modelCalls
      (env.template st1.query (get_history st1)
        (String.intercalate ", " (st1.tools.map (fun p => Name.str p.2.name)))) := rfl

@[simp] theorem thinkStep_state_query (env : Env) (st1 : AgentState) (idx : Nat) :
    ((thinkStep env st1 idx).2).query = st1.query := by
  simp [thinkStep, ask_gemini]



/-- In every outcome-recording branch, `decide` appends a second reference
to the current step right after the one `think` appended. -/
theorem decideCore_second_ref (env : Env) (r : String) (idx : Nat) (st : AgentState)
    (hout : recordsOutcome env r st.query) :
    st.traceRefs ++ [idx] <+: ((decideCore env r idx st).state).traceRefs := by
  unfold recordsOutcome at hout
  cases hj : env.jsonLoads (cleanResponse r) with
  | error e =>
    rw [decideCore_jsonError_eq _ _ _ _ _ hj]
    dsimp only [StepOutcome.state]
    simp [List.prefix_rfl]
  | ok parsed =>
    rw [hj] at hout
    dsimp only at hout
    cases hd : dispatch parsed st.query with
    | error e =>
      rw [decideCore_dispatchError_eq _ _ _ _ _ _ hj hd]
      dsimp only [StepOutcome.state]
      simp [List.prefix_rfl]
    | ok d =>
      cases d with
      | noAction a =>
        rw [hd] at hout
        exact hout.elim
      | useTool a tn input =>
        rw [decideCore_useTool_eq _ _ _ _ _ _ _ _ hj hd]
        dsimp only [StepOutcome.state]
        have hm := (mono_actCore tn input idx
          (trace (modifyStep st idx (fun s => { s with action := some a }))
            "assistant" ("Action: Using " ++ Name.str tn ++ " tool") (some idx))).refsPref
        simpa using hm
      | finalAnswer t =>
        rw [decideCore_answer_eq _ _ _ _ _ _ hj hd]
        dsimp only [StepOutcome.state]
        simp [List.prefix_rfl]

/-- Two trace references to one step index become two returned entries with
that step's iteration number. -/
theorem two_le_countP_runResult (final : AgentState) (idx n : Nat)
    (hcount : 2 ≤ final.traceRefs.count idx)
    (hnum : (final.steps.getD idx default).iteration_number = n) :
    2 ≤ List.countP (fun rec => rec.iteration_number == n) (runResult final) := by
  unfold runResult
  rw [List.countP_map]
  refine le_trans hcount ?_
  rw [List.count_eq_countP]
  apply List.countP_mono_left
  intro a ha hp
  have hai : a = idx := by simpa using hp
  subst hai
  simpa [Function.comp, List.getD_eq_getElem?_getD] using hnum

/-- C9: a `trace` call with a step reference appends it to the record list,
so an iteration in which the model was consulted (the counter is still
within budget) and `decide` then recorded an outcome contributes at least
two references to its step — hence at least two returned entries carrying
that iteration's number. -/
theorem decide_outcome_double_entry (env : Env) (fuel : Nat) (st : AgentState)
    (hbudget : st.currentIteration < st.maxIterations)
    (houtcome : ∀ p, recordsOutcome env (geminiText env st.modelCalls p) st.query) :
    (∀ (s : AgentState) (role c : String) (i : Nat),
      (trace s role c (some i)).traceRefs = s.traceRefs ++ [i]) ∧
    2 ≤ (think env (fuel + 1) st).traceRefs.count st.steps.length ∧
    2 ≤ List.countP (fun rec => rec.iteration_number == st.currentIteration + 1)
        (runResult (think env (fuel + 1) st)) := by
  have hc : ¬ (thinkEnter st).maxIterations < (thinkEnter st).currentIteration := by
    simp
    omega
  rw [think_succ_eq, if_neg hc]
  have hq : ((thinkStep env (thinkEnter st) st.steps.length).2).query = st.query := by simp
  have hrefs4 : ((thinkStep env (thinkEnter st) st.steps.length).2).traceRefs
      = st.traceRefs ++ [st.steps.length] := by simp
  have hout : recordsOutcome env (thinkStep env (thinkEnter st) st.steps.length).1
      ((thinkStep env (thinkEnter st) st.steps.length).2).query := by
    rw [hq, thinkStep_fst]
    have := houtcome (env.template (thinkEnter st).query (get_history (thinkEnter st))
      (String.intercalate ", " ((thinkEnter st).tools.map (fun p => Name.str p.2.name))))
    simpa using this
  have hpref := decideCore_second_ref env (thinkStep env (thinkEnter st) st.steps.length).1
    st.steps.length (thinkStep env (thinkEnter st) st.steps.length).2 hout
  have hMfinal := mono_run_think env fuel
    (decideCore env (thinkStep env (thinkEnter st) st.steps.length).1
      st.steps.length (thinkStep env (thinkEnter st) st.steps.length).2)
  have hcount : 2 ≤ ((decideCore env (thinkStep env (thinkEnter st) st.steps.length).1
      st.steps.length (thinkStep env (thinkEnter st) st.steps.length).2).run
        (think env fuel)).traceRefs.count st.steps.length := by
    have h1 := (hpref.trans hMfinal.refsPref).sublist.count_le st.steps.length
    rw [hrefs4] at h1
    simp [List.count_append] at h1
    omega
  refine ⟨fun s role c i => trace_refs_some s role c i, hcount, ?_⟩
  have hMa := mono_thinkStep env (thinkEnter st) st.steps.length
  have hMb := decideCore_mono env (thinkStep env (thinkEnter st) st.steps.length).1
    st.steps.length (thinkStep env (thinkEnter st) st.steps.length).2
  have hM := (hMa.trans hMb).trans hMfinal
  have hidx : st.steps.length < (thinkEnter st).steps.length := by simp
  have hnum := hM.iterNum st.steps.length hidx
  rw [thinkEnter_steps, getD_snoc_length] at hnum
  exact two_le_countP_runResult _ _ _ hcount hnum



theorem getD_mem_or_default {α : Type} [Inhabited α] (l : List α) (idx : Nat) :
    l.getD idx default ∈ l ∨ l.getD idx default = default := by
  by_cases hlt : idx < l.length
  · left
    rw [List.getD_eq_getElem?_getD, List.getElem?_eq_getElem hlt]
    exact List.getElem_mem hlt
  · right
    rw [List.getD_eq_getElem?_getD, List.getElem?_eq_none (by omega)]
    rfl

theorem noFA_modifyStep (st : AgentState) (idx : Nat) (f : IterationStep → IterationStep)
    (hf : ∀ s, s.final_answer = none → (f s).final_answer = none)
    (h : NoFA st) : NoFA (modifyStep st idx f) := by
  intro rec hrec
  rcases List.mem_or_eq_of_mem_set hrec with h1 | h1
  · exact h rec h1
  · subst h1
    apply hf
    rcases getD_mem_or_default st.steps idx with h2 | h2
    · exact h _ h2
    · rw [h2]
      rfl

theorem noFA_trace (st : AgentState) (role content : String) (o : Option Nat)
    (h : NoFA st) : NoFA (trace st role content o) := by
  intro rec hrec
  rw [trace_steps] at hrec
  exact h rec hrec

theorem noFA_thinkEnter (st : AgentState) (h : NoFA st) : NoFA (thinkEnter st) := by
  intro rec hrec
  rw [thinkEnter_steps] at hrec
  rcases List.mem_append.mp hrec with h1 | h1
  · exact h rec h1
  · rw [List.mem_singleton] at h1
    subst h1
    rfl

theorem noFA_thinkStep (env : Env) (st1 : AgentState) (idx : Nat)
    (h : NoFA st1) : NoFA ((thinkStep env st1 idx).2) := by
  rw [thinkStep_snd]
  refine noFA_trace _ _ _ _ (noFA_modifyStep _ _ _ (fun s hs => hs) ?_)
  intro rec hrec
  exact h rec hrec

/-- The shape of a run in which no model response ever parses, from a state
with `f` iterations of budget left: each of the `f` in-budget iterations
contributes its step reference twice (once for the thought, once for the
parse error), the cutoff iteration contributes one more, the last reference
points at the budget-exhaustion record, and no final answer appears. -/
theorem parseFail_run (env : Env) (hj : ∀ s, ∃ e, env.jsonLoads s = .error e) :
    ∀ (f : Nat) (st : AgentState), st.currentIteration + f = st.maxIterations →
    (think env (f + 1) st).traceRefs.length = st.traceRefs.length + (2 * f + 1) ∧
    (NoFA st → NoFA (think env (f + 1) st)) ∧
    (∃ i rec, (think env (f + 1) st).traceRefs.getLast? = some i ∧
      (think env (f + 1) st).steps.getD i default = rec ∧
      (∃ hist, rec.error = some (apologyPrefix ++ hist)) ∧
      rec.final_answer = none) := by
  intro f
  induction f with
  | zero =>
    intro st hf
    have hc : (thinkEnter st).maxIterations < (thinkEnter st).currentIteration := by
      simp
      omega
    rw [think_succ_eq, if_pos hc, thinkTerminal_spec]
    refine ⟨by simp, ?_, ?_⟩
    · intro hall rec hrec
      simp only at hrec
      rcases List.mem_append.mp hrec with h1 | h1
      · exact hall rec h1
      · rw [List.mem_singleton] at h1
        subst h1
        rfl
    · refine ⟨st.steps.length,
        { iteration_number := st.currentIteration + 1,
          error := some (apologyPrefix ++ get_history st) }, ?_, ?_, ?_, rfl⟩
      · simp only
        exact List.getLast?_concat _
      · simp only
        exact getD_snoc_length _ _ _
      · exact ⟨get_history st, rfl⟩
  | succ f ih =>
    intro st hf
    have hc : ¬ (thinkEnter st).maxIterations < (thinkEnter st).currentIteration := by
      simp
      omega
    rw [think_succ_eq, if_neg hc]
    obtain ⟨e, he⟩ := hj (cleanResponse (thinkStep env (thinkEnter st) st.steps.length).1)
    rw [decideCore_jsonError_eq _ _ _ _ _ he]
    dsimp only [StepOutcome.run]
    have hcur : (trace (modifyStep (thinkStep env (thinkEnter st) st.steps.length).2
        st.steps.length (fun s =>
          { s with error := some ("I encountered an error in processing. Let me try again. Error: " ++ e) }))
        "assistant" ("I encountered an error in processing. Let me try again. Error: " ++ e)
        (some st.steps.length)).currentIteration = st.currentIteration + 1 := by
      simp
    have hmax : (trace (modifyStep (thinkStep env (thinkEnter st) st.steps.length).2
        st.steps.length (fun s =>
          { s with error := some ("I encountered an error in processing. Let me try again. Error: " ++ e) }))
        "assistant" ("I encountered an error in processing. Let me try again. Error: " ++ e)
        (some st.steps.length)).maxIterations = st.maxIterations := by
      simp
    have hrefs : (trace (modifyStep (thinkStep env (thinkEnter st) st.steps.length).2
        st.steps.length (fun s =>
          { s with error := some ("I encountered an error in processing. Let me try again. Error: " ++ e) }))
        "assistant" ("I encountered an error in processing. Let me try again. Error: " ++ e)
        (some st.steps.length)).traceRefs.length = st.traceRefs.length + 2 := by
      simp
    obtain ⟨hlen, hfa, hlast⟩ := ih _ (by rw [hcur, hmax]; omega)
    refine ⟨?_, ?_, hlast⟩
    · rw [hlen, hrefs]
      omega
    · intro hall
      refine hfa ?_
      exact noFA_trace _ _ _ _ (noFA_modifyStep _ _ _ (fun s hs => hs)
        (noFA_thinkStep env _ _ (noFA_thinkEnter st hall)))

/-- C3 (amended): if the model's output never parses, `execute()` returns
`2 * max_iterations + 1` entries — each of the `max_iterations` in-budget
iterations is represented twice (its record is appended when the thought is
traced and again when the parse error is traced) plus the final cutoff
record — the last entry carries the budget-exhaustion error (the apology
text), and no entry has `final_answer` set. -/
theorem execute_parse_failure_shape (env : Env) (st : AgentState) (q : String)
    (hj : ∀ s, ∃ e, env.jsonLoads s = .error e) :
    (execute env st q).1.length = 2 * st.maxIterations + 1 ∧
    (∀ rec ∈ (execute env st q).1, rec.final_answer = none) ∧
    (∃ rec, (execute env st q).1.getLast? = some rec ∧
      (∃ hist, rec.error = some (apologyPrefix ++ hist)) ∧
      rec.final_answer = none) := by
  simp only [execute, executeFuel]
  obtain ⟨hlen, hfa, i, rec, hlast, hgetD, herr, hfinal⟩ :=
    parseFail_run env hj st.maxIterations
      (trace { st with query := q, traceRefs := [], steps := [], messages := [],
                       currentIteration := 0 } "user" q none)
      (by simp)
  refine ⟨?_, ?_, ?_⟩
  · simp only [runResult, List.length_map]
    rw [hlen]
    simp
  · intro r hr
    simp only [runResult] at hr
    obtain ⟨j, hj2, rfl⟩ := List.mem_map.mp hr
    have hNoFA := hfa (by intro x hx; simp at hx)
    rcases getD_mem_or_default
        ((think env (st.maxIterations + 1)
          (trace { st with query := q, traceRefs := [], steps := [], messages := [],
                           currentIteration := 0 } "user" q none)).steps) j with h1 | h1
    · exact hNoFA _ h1
    · rw [h1]
      rfl
  · refine ⟨rec, ?_, herr, hfinal⟩
    simp only [runResult]
    rw [List.getLast?_map, hlast]
    rw [List.getD_eq_getElem?_getD] at hgetD
    simp [hgetD]



/-- C2 (amended): if the model's first response is a well-formed
`{"answer": a}` payload, `execute()` returns exactly two entries — both
references to the single created record (appended once when the thought is
traced and once when the final answer is traced) — and that record has
`final_answer` set and no `error`. -/
theorem execute_first_answer (env : Env) (st : AgentState) (q r a : String)
    (hmax : 1 ≤ st.maxIterations)
    (hmodel : ∀ p, env.model st.modelCalls p = some r)
    (hparse : env.jsonLoads (cleanResponse r) = .ok (Json.obj [("answer", Json.str a)])) :
    (execute env st q).1 = [answerRecord r a, answerRecord r a] ∧
    (answerRecord r a).final_answer = some ("Final Answer: " ++ a) ∧
    (answerRecord r a).error = none := by
  refine ⟨?_, rfl, rfl⟩
  simp only [execute, executeFuel]
  set st2 := trace { st with query := q, traceRefs := [], steps := [], messages := [], currentIteration := 0 } "user" q none with hst2
  obtain ⟨m, hm⟩ : ∃ m, st.maxIterations = m + 1 := ⟨st.maxIterations - 1, by omega⟩
  rw [hm]
  rw [think_succ_eq, if_neg (by simp [hst2]; omega)]
  have hr : (thinkStep env (thinkEnter st2) st2.steps.length).1 = r := by
    rw [thinkStep_fst]
    simp [hst2, geminiText, hmodel]
  rw [hr]
  have hd : dispatch (Json.obj [("answer", Json.str a)])
      ((thinkStep env (thinkEnter st2) st2.steps.length).2).query
      = .ok (.finalAnswer a) := rfl
  rw [decideCore_answer_eq _ _ _ _ _ _ hparse hd]
  dsimp only [StepOutcome.run]
  simp [hst2, thinkEnter, trace] at hr
  simp [hst2, runResult, thinkStep_snd, modifyStep, trace, thinkEnter, answerRecord, hr]

/-- Counterexample for C2 as stated: a first-call answer yields a returned
sequence of two entries, not exactly one IterationRecord. -/
theorem execute_answer_counterexample :
    (execute envAnswer initialAgent "q").1.length = 2 ∧
    ¬((execute envAnswer initialAgent "q").1.length = 1) :=
  ⟨by decide, by decide⟩

/-- Witness for C2 (amended) at the concrete answering model. -/
theorem execute_first_answer_witness :
    1 ≤ initialAgent.maxIterations ∧
    ((execute envAnswer initialAgent "q").1
        = [answerRecord "RESP" "42", answerRecord "RESP" "42"] ∧
     (answerRecord "RESP" "42").final_answer = some ("Final Answer: " ++ "42") ∧
     (answerRecord "RESP" "42").error = none) :=
  ⟨by decide,
   execute_first_answer envAnswer initialAgent "q" "RESP" "42" (by decide)
     (fun _ => rfl) rfl⟩

/-- Counterexample for C3 as stated: with the default bound of 5 and an
always-malformed model, `execute()` returns 11 entries, not
`max_iterations = 5`. -/
theorem execute_malformed_counterexample :
    (execute envFail initialAgent "q").1.length = 11 ∧
    ¬((execute envFail initialAgent "q").1.length = initialAgent.maxIterations) :=
  ⟨by decide, by decide⟩

/-- Witness for C3 (amended) at the concrete always-failing parser. -/
theorem execute_parse_failure_shape_witness :
    (execute envFail initialAgent "q").1.length = 2 * initialAgent.maxIterations + 1 ∧
    (∀ rec ∈ (execute envFail initialAgent "q").1, rec.final_answer = none) ∧
    (∃ rec, (execute envFail initialAgent "q").1.getLast? = some rec ∧
      (∃ hist, rec.error = some (apologyPrefix ++ hist)) ∧
      rec.final_answer = none) :=
  execute_parse_failure_shape envFail initialAgent "q"
    (fun _ => ⟨"Expecting value: line 1 column 1 (char 0)", rfl⟩)

/-- Witness for C9: with an always-unparsable model, the first iteration of
a fresh agent is represented at least twice in the returned records. -/
theorem decide_outcome_double_entry_witness :
    initialAgent.currentIteration < initialAgent.maxIterations ∧
    ((∀ (s : AgentState) (role c : String) (i : Nat),
       (trace s role c (some i)).traceRefs = s.traceRefs ++ [i]) ∧
     2 ≤ (think envFail (5 + 1) initialAgent).traceRefs.count initialAgent.steps.length ∧
     2 ≤ List.countP (fun rec => rec.iteration_number == initialAgent.currentIteration + 1)
        (runResult (think envFail (5 + 1) initialAgent))) :=
  ⟨by decide,
   decide_outcome_double_entry envFail 5 initialAgent (by decide) (fun _ => trivial)⟩

/-- Witness for C8: a state with leftover session data yields the same run
as a fresh agent. -/
theorem execute_resets_session_witness :
    staleAgent.maxIterations = initialAgent.maxIterations ∧
    staleAgent.tools = initialAgent.tools ∧
    staleAgent.modelCalls = initialAgent.modelCalls ∧
    execute envFail staleAgent "q" = execute envFail initialAgent "q" :=
  ⟨rfl, rfl, rfl, execute_resets_session envFail staleAgent initialAgent "q" rfl rfl rfl⟩

end ReactAgent
